import Mathlib

/-!
Shallow embedding of the ccc-dashboard data pipeline (src/app.py) in Lean 4.

The embedded fragments are the filter engine (filter_data), the coordinate
jitter routine (jitter_coords), the map aggregator (aggregate_events_for_map),
the time-series builders (daily counts, cumulative counts, momentum) and the
KPI scalars, all as they appear in the update_all callback of src/app.py.

Modelling conventions:
  - pandas rows become a Lean structure `Row`; a nullable cell is an `Option`.
  - floats are idealised as rationals; `NaN` is `Option.none`.
  - dates are days since an epoch (`Int`); `NaT` is `none`.  The calendar
    conversion used by strftime and str(date) is the standard civil-from-days
    algorithm.
  - text processed by lower/strip/split is a `List Char`; case folding is
    ASCII, matching the data in the corpus.
  - columns that pd.to_numeric coerces at load time are a `Cell`, which is
    either an already-numeric value or raw text, so the in-place re-coercion
    performed by filter_data is visible in the model.
  - the coordinates produced by jitter_coords involve cos/sin; they are kept
    symbolic in `JAx` (center, radius, angle index), with a separate
    noncomputable interpretation into the reals for the geometric statement.
  - figure outputs keep the data series they draw; pixel styling, hover
    strings, zoom/centering and colors are presentation and are not modelled.
-/

namespace CCC

/-! ### ASCII text utilities (Python lower/strip/split idealised) -/

/-- ASCII lower-casing of one character, as Python str.lower acts on the
letters appearing in this corpus. -/
def lcChar (c : Char) : Char :=
  match c with
  | 'A' => 'a' | 'B' => 'b' | 'C' => 'c' | 'D' => 'd' | 'E' => 'e'
  | 'F' => 'f' | 'G' => 'g' | 'H' => 'h' | 'I' => 'i' | 'J' => 'j'
  | 'K' => 'k' | 'L' => 'l' | 'M' => 'm' | 'N' => 'n' | 'O' => 'o'
  | 'P' => 'p' | 'Q' => 'q' | 'R' => 'r' | 'S' => 's' | 'T' => 't'
  | 'U' => 'u' | 'V' => 'v' | 'W' => 'w' | 'X' => 'x' | 'Y' => 'y'
  | 'Z' => 'z' | other => other

/-- Python str.lower over a character list. -/
def lcStr (s : List Char) : List Char := s.map lcChar

/-- Whitespace recognised by Python str.strip. -/
def isSp (c : Char) : Bool := c = ' ' || c = '\t' || c = '\n' || c = '\r'

/-- Python str.strip: drop whitespace from both ends. -/
def strip (s : List Char) : List Char :=
  ((s.dropWhile isSp).reverse.dropWhile isSp).reverse

/-- Python str.split with separator a comma, keeping empty pieces. -/
def splitC : List Char → List (List Char)
  | [] => [[]]
  | c :: t =>
    let r := splitC t
    if c = ',' then [] :: r
    else
      match r with
      | [] => [[c]]
      | h :: t2 => (c :: h) :: t2

/-- Whether `n` occurs at the start of `h` (literal character match). -/
def chPre : List Char → List Char → Bool
  | [], _ => true
  | _ :: _, [] => false
  | a :: xs, b :: ys => a = b && chPre xs ys

/-- Whether `n` occurs anywhere inside `h`: the semantics of a
regex-escaped pattern alternative under pandas str.contains. -/
def chSub (n : List Char) : List Char → Bool
  | [] => n.isEmpty
  | b :: ys => chPre n (b :: ys) || chSub n ys

/-! ### Calendar conversion (civil from days), for strftime and str(date) -/

/-- Days-since-epoch to (year, month, day), the standard civil calendar
algorithm; used to model strftime and the str() rendering of dates. -/
def civilFromDays (z0 : Int) : Int × Int × Int :=
  let z := z0 + 719468
  let era := (if 0 ≤ z then z else z - 146096) / 146097
  let doe := z - era * 146097
  let yoe := (doe - doe / 1460 + doe / 36524 - doe / 146096) / 365
  let y := yoe + era * 400
  let doy := doe - (365 * yoe + yoe / 4 - yoe / 100)
  let mp := (5 * doy + 2) / 153
  let d := doy - (153 * mp + 2) / 5 + 1
  let m := mp + (if mp < 10 then 3 else -9)
  (y + (if m ≤ 2 then 1 else 0), m, d)

/-- Zero-pad a numeral to two digits. -/
def pad2 (n : Int) : List Char :=
  if n < 10 then '0' :: (toString n).toList else (toString n).toList

/-- strftime with format month-day, as used by the national-day filter. -/
def mmdd (z : Int) : List Char :=
  let c := civilFromDays z
  pad2 c.2.1 ++ ['-'] ++ pad2 c.2.2

/-- str() of a Python date: ISO year-month-day. -/
def dateStr (z : Int) : List Char :=
  let c := civilFromDays z
  (toString c.1).toList ++ ['-'] ++ pad2 c.2.1 ++ ['-'] ++ pad2 c.2.2

/-! ### Data model -/

/-- A cell of a column that pd.to_numeric coerces: either already numeric
(possibly NaN) or raw text not yet coerced. -/
inductive Cell
  | num (q : Option ℚ)
  | text (s : List Char)
  deriving DecidableEq, Repr

/-- pd.to_numeric with coercion of errors: numeric cells are unchanged and
text is parsed, yielding NaN (none) when unparseable.  The parser handles
an optional sign and an integer numeral, which is all the corpus holds in
these columns; anything else (such as the word unspecified) coerces to NaN. -/
def parseNum (s0 : List Char) : Option ℚ :=
  let s := strip s0
  let core := match s with
    | '-' :: t => some (true, t)
    | '+' :: t => some (false, t)
    | t => some (false, t)
  match core with
  | some (neg, t) =>
    if t ≠ [] ∧ t.all (fun c => c.isDigit) then
      let v : ℕ := t.foldl (fun a c => a * 10 + (c.toNat - 48)) 0
      some (if neg then -(v : ℚ) else (v : ℚ))
    else none
  | none => none

/-- pd.to_numeric applied to one cell. -/
def toNum (c : Cell) : Cell :=
  match c with
  | .num q => .num q
  | .text s => .num (parseNum s)

/-- One row of the event dataset, as it exists after the load-time
preparation at the top of src/app.py: date parsed to datetime, size_mean
numeric, organizations lower-cased, the outcome counters coerced to numeric
(still carried as Cell so the re-coercion inside filter_data is visible),
and property_damage_any a 0/1 integer column. -/
structure Row where
  date : Option Int
  lat : Option ℚ
  lon : Option ℚ
  size_mean : Option ℚ
  location : Option (List Char)
  locality : Option (List Char)
  state : Option (List Char)
  resolved_locality : Option (List Char)
  organizations : List Char
  title : Option (List Char)
  arrests : Cell
  participant_injuries : Cell
  police_injuries : Cell
  participant_deaths : Cell
  police_deaths : Cell
  property_damage_any : Nat
  deriving DecidableEq, Repr

/-- A row with every field empty, used as the base for concrete examples. -/
def row0 : Row :=
  { date := none, lat := none, lon := none, size_mean := none
  , location := none, locality := none, state := none
  , resolved_locality := none, organizations := []
  , title := none, arrests := .num none, participant_injuries := .num none
  , police_injuries := .num none, participant_deaths := .num none
  , police_deaths := .num none, property_damage_any := 0 }

instance : Inhabited Row := ⟨row0⟩

/-- pandas astype(str) over a nullable text cell: NaN renders as the
string nan. -/
def toStr (o : Option (List Char)) : List Char :=
  match o with
  | some s => s
  | none => ['n', 'a', 'n']

/-- The filter parameters received by the update_all callback. -/
structure Params where
  startD : Option Int
  endD : Option Int
  sizeFilter : List Char
  orgSearch : Option (List Char)
  stateF : List (List Char)
  cityF : List (List Char)
  outcomes : List (List Char)
  nationalDay : Option (List Char)
  deriving DecidableEq, Repr

/-! ### Filter engine (filter_data, src/app.py lines 891-955) -/

/-- The in-place re-coercion at the top of filter_data: the five outcome
counter columns are run through pd.to_numeric again. -/
def coerceRow (r : Row) : Row :=
  { r with
    arrests := toNum r.arrests
    participant_injuries := toNum r.participant_injuries
    police_injuries := toNum r.police_injuries
    participant_deaths := toNum r.participant_deaths
    police_deaths := toNum r.police_deaths }

/-- Mask for one outcome flag: field non-null and greater than zero. -/
def cellPos (c : Cell) : Bool :=
  match c with
  | .num (some q) => decide (0 < q)
  | _ => false

/-- The organization-search mask of filter_data: skip when the search is
missing or whitespace; otherwise lower-case, split on commas, strip the
pieces, drop empties, and keep the row when the stored organizations text
contains any piece (the regex built from escaped pieces joined by the
alternation bar matches exactly literal substring occurrence). -/
def orgMask (search : Option (List Char)) (orgs : List Char) : Bool :=
  match search with
  | none => true
  | some s =>
    if strip s = [] then true
    else
      let ts := ((splitC (lcStr s)).map strip).filter (fun t => t ≠ [])
      if ts = [] then true else ts.any (fun t => chSub t orgs)

/-- One enabled outcome flag of filter_data; strings that are not one of
the six known flags impose no condition. -/
def outcomeTest (o : List Char) (r : Row) : Bool :=
  if o = "arrests_any".toList then cellPos r.arrests
  else if o = "participant_injuries_any".toList then cellPos r.participant_injuries
  else if o = "police_injuries_any".toList then cellPos r.police_injuries
  else if o = "property_damage_any".toList then r.property_damage_any = 1
  else if o = "participant_deaths_any".toList then cellPos r.participant_deaths
  else if o = "police_deaths_any".toList then cellPos r.police_deaths
  else true

/-- The conjunction of all masks built by filter_data, evaluated on a row
of the (re-coerced) dataset. -/
def rowPred (p : Params) (r : Row) : Bool :=
  (match p.startD, p.endD with
   | some s, some e =>
     match r.date with
     | some d => decide (s ≤ d ∧ d ≤ e)
     | none => false
   | _, _ => true)
  && (match p.nationalDay with
      | some v =>
        if v = [] then true
        else match r.date with
          | some d => mmdd d = v
          | none => false
      | none => true)
  && (if p.sizeFilter = "has".toList then r.size_mean.isSome
      else if p.sizeFilter = "no".toList then r.size_mean.isNone
      else true)
  && orgMask p.orgSearch r.organizations
  && (if p.stateF ≠ [] then
        match r.state with
        | some s => p.stateF.contains s
        | none => false
      else true)
  && (if p.cityF ≠ [] then
        match r.resolved_locality with
        | some s => p.cityF.contains s
        | none => false
      else true)
  && p.outcomes.all (fun o => outcomeTest o r)

/-- filter_data including its side effect: the first component is the
process-wide dataset as it stands after the call (columns re-coerced in
place), the second is the returned filtered copy. -/
def filterDataM (p : Params) (ds : List Row) : List Row × List Row :=
  let ds2 := ds.map coerceRow
  (ds2, ds2.filter (rowPred p))

/-- The value filter_data returns. -/
def filterData (p : Params) (ds : List Row) : List Row :=
  (filterDataM p ds).2

/-- A cell is already numeric (the state every outcome column is in after
the load-time coercion at src/app.py lines 39-44). -/
def cellLoaded (c : Cell) : Bool :=
  match c with
  | .num _ => true
  | .text _ => false

/-- A row as produced by the dataset loader: all five outcome counters
already numeric. -/
def rowLoaded (r : Row) : Bool :=
  cellLoaded r.arrests && cellLoaded r.participant_injuries
    && cellLoaded r.police_injuries && cellLoaded r.participant_deaths
    && cellLoaded r.police_deaths

/-- A loaded dataset: every row loaded. -/
def dsLoaded (ds : List Row) : Bool := ds.all rowLoaded

theorem toNum_loaded {c : Cell} (h : cellLoaded c = true) : toNum c = c := by
  cases c with
  | num q => rfl
  | text s => simp [cellLoaded] at h

theorem coerceRow_loaded {r : Row} (h : rowLoaded r = true) : coerceRow r = r := by
  unfold rowLoaded at h
  simp only [Bool.and_eq_true] at h
  unfold coerceRow
  rw [toNum_loaded h.1.1.1.1, toNum_loaded h.1.1.1.2, toNum_loaded h.1.1.2,
      toNum_loaded h.1.2, toNum_loaded h.2]

theorem map_coerceRow_loaded {ds : List Row} (h : dsLoaded ds = true) :
    ds.map coerceRow = ds := by
  induction ds with
  | nil => rfl
  | cons a t ih =>
    unfold dsLoaded at h
    simp only [List.all_cons, Bool.and_eq_true] at h
    simp only [List.map_cons, coerceRow_loaded h.1, ih h.2]

theorem dsLoaded_filter {p : Row → Bool} {ds : List Row}
    (h : dsLoaded ds = true) : dsLoaded (ds.filter p) = true := by
  unfold dsLoaded at h ⊢
  rw [List.all_eq_true] at h ⊢
  intro r hr
  exact h r (List.mem_of_mem_filter hr)

/-! ### Lemmas relating the organization search of the code to the wording
of the specification (split first, then trim and lower each term) -/

theorem lcChar_comma {c : Char} : (lcChar c = ',') ↔ (c = ',') := by
  constructor
  · intro h
    unfold lcChar at h
    split at h <;> first | (exact absurd h (by decide)) | exact h
  · intro h; subst h; rfl

theorem isSp_lcChar (c : Char) : isSp (lcChar c) = isSp c := by
  unfold lcChar
  split <;> rfl

theorem splitC_nil : splitC [] = [[]] := rfl

theorem splitC_comma (t : List Char) : splitC (',' :: t) = [] :: splitC t := by
  conv_lhs => unfold splitC
  exact if_pos rfl

theorem splitC_cons {c : Char} (t : List Char) (hc : ¬ c = ',') :
    splitC (c :: t) =
      match splitC t with
      | [] => [[c]]
      | h :: t2 => (c :: h) :: t2 := by
  conv_lhs => unfold splitC
  exact if_neg hc

theorem splitC_lcStr (s : List Char) :
    splitC (lcStr s) = (splitC s).map lcStr := by
  induction s with
  | nil => rfl
  | cons c t ih =>
    by_cases hc : c = ','
    · subst hc
      have h1 : lcStr (',' :: t) = ',' :: lcStr t := rfl
      rw [h1, splitC_comma, splitC_comma, ih, List.map_cons]
      rfl
    · have hlc : ¬ lcChar c = ',' := fun h => hc (lcChar_comma.mp h)
      have h1 : lcStr (c :: t) = lcChar c :: lcStr t := rfl
      rw [h1, splitC_cons _ hlc, splitC_cons _ hc, ih]
      cases splitC t with
      | nil => rfl
      | cons h t2 => rfl

theorem strip_lcStr (s : List Char) : strip (lcStr s) = lcStr (strip s) := by
  unfold strip lcStr
  have hco : (isSp ∘ lcChar) = isSp := funext isSp_lcChar
  rw [List.dropWhile_map, hco, ← List.map_reverse, List.dropWhile_map, hco,
    ← List.map_reverse]

theorem lcStr_nil_iff {s : List Char} : lcStr s = [] ↔ s = [] := by
  unfold lcStr
  simp

theorem strip_eq_nil_iff {s : List Char} :
    strip s = [] ↔ ∀ c ∈ s, isSp c = true := by
  unfold strip
  rw [List.reverse_eq_nil_iff, List.dropWhile_eq_nil_iff]
  constructor
  · intro h c hc
    by_cases hd : c ∈ s.dropWhile isSp
    · exact h c (List.mem_reverse.mpr hd)
    · have hsplit := List.takeWhile_append_dropWhile (p := isSp) (l := s)
      have : c ∈ s.takeWhile isSp ++ s.dropWhile isSp := by rw [hsplit]; exact hc
      rw [List.mem_append] at this
      rcases this with h1 | h2
      · exact List.mem_takeWhile_imp h1
      · exact absurd h2 hd
  · intro h c hc
    exact h c (List.Sublist.mem (List.mem_reverse.mp hc) (List.dropWhile_sublist _))

theorem mem_splitC_sub {s : List Char} {t : List Char} {c : Char}
    (ht : t ∈ splitC s) (hc : c ∈ t) : c ∈ s := by
  induction s generalizing t with
  | nil =>
    rw [splitC_nil, List.mem_singleton] at ht
    subst ht
    exact absurd hc (List.not_mem_nil c)
  | cons a u ih =>
    by_cases ha : a = ','
    · subst ha
      rw [splitC_comma, List.mem_cons] at ht
      rcases ht with rfl | h2
      · exact absurd hc (List.not_mem_nil c)
      · exact List.mem_cons_of_mem _ (ih h2 hc)
    · rw [splitC_cons u ha] at ht
      cases hs : splitC u with
      | nil =>
        rw [hs] at ht
        rw [List.mem_singleton] at ht
        subst ht
        rw [List.mem_singleton] at hc
        subst hc
        exact List.mem_cons_self _ _
      | cons h0 t2 =>
        rw [hs] at ht
        rcases List.mem_cons.mp ht with rfl | h2
        · rcases List.mem_cons.mp hc with rfl | h3
          · exact List.mem_cons_self _ _
          · have hh0 : h0 ∈ splitC u := by rw [hs]; exact List.mem_cons_self _ _
            exact List.mem_cons_of_mem _ (ih hh0 h3)
        · have hmem : t ∈ splitC u := by rw [hs]; exact List.mem_cons_of_mem _ h2
          exact List.mem_cons_of_mem _ (ih hmem hc)

/-- The organization-search membership rule, written in the order the
specification states it: split the raw search on commas, trim and
lower-case each term, drop empty terms; match the lower-cased raw
organizations text against any surviving term as a substring; an empty
term list means the rule keeps every row. -/
def orgSpecKeep (search : List Char) (orgsRaw : List Char) : Bool :=
  let ts := ((splitC search).map (fun t => lcStr (strip t))).filter (fun t => t ≠ [])
  ts = [] || ts.any (fun t => chSub t (lcStr orgsRaw))

theorem orgMask_eq_spec (search orgsRaw : List Char) :
    orgMask (some search) (lcStr orgsRaw) = orgSpecKeep search orgsRaw := by
  have hterms : ((splitC (lcStr search)).map strip).filter (fun t => t ≠ [])
      = ((splitC search).map (fun t => lcStr (strip t))).filter (fun t => t ≠ []) := by
    rw [splitC_lcStr, List.map_map]
    have : (strip ∘ lcStr) = (fun t => lcStr (strip t)) := by
      funext t; exact strip_lcStr t
    rw [this]
  show (if strip search = [] then true
        else
          if ((splitC (lcStr search)).map strip).filter (fun t => t ≠ []) = [] then true
          else (((splitC (lcStr search)).map strip).filter (fun t => t ≠ [])).any
            (fun t => chSub t (lcStr orgsRaw)))
      = (decide ((((splitC search).map (fun t => lcStr (strip t))).filter
            (fun t => t ≠ [])) = [])
         || (((splitC search).map (fun t => lcStr (strip t))).filter
              (fun t => t ≠ [])).any (fun t => chSub t (lcStr orgsRaw)))
  rw [hterms]
  by_cases hs : strip search = []
  · rw [if_pos hs]
    have hempty : ((splitC search).map (fun t => lcStr (strip t))).filter
        (fun t => t ≠ []) = [] := by
      rw [List.filter_eq_nil_iff]
      intro t ht
      rw [List.mem_map] at ht
      obtain ⟨u, hu, rfl⟩ := ht
      have husub : strip u = [] := by
        rw [strip_eq_nil_iff]
        intro c hc
        exact strip_eq_nil_iff.mp hs c (mem_splitC_sub hu hc)
      rw [husub]
      simp [lcStr]
    rw [hempty]
    simp
  · rw [if_neg hs]
    by_cases ht : ((splitC search).map (fun t => lcStr (strip t))).filter
        (fun t => t ≠ []) = []
    · rw [if_pos ht, ht]
      simp
    · rw [if_neg ht, decide_eq_false ht, Bool.false_or]

/-- A parameter set with every filter disabled. -/
def pAll : Params :=
  { startD := none, endD := none, sizeFilter := "all".toList
  , orgSearch := none, stateF := [], cityF := [], outcomes := []
  , nationalDay := none }

/-- Claim C2: filter_data never mutates the source dataset.  The body of
filter_data does assign re-coerced outcome columns back into the
process-wide dataframe, but on a dataset in its loaded state (outcome
counters already numeric, which the loader guarantees) the assignment is
value-identical, so the dataset after the call equals the dataset before. -/
theorem filterData_no_mutation (p : Params) (ds : List Row)
    (h : dsLoaded ds = true) : (filterDataM p ds).1 = ds := by
  show ds.map coerceRow = ds
  exact map_coerceRow_loaded h

/-- Witness for filterData_no_mutation at a concrete loaded dataset. -/
theorem filterData_no_mutation_witness :
    dsLoaded [row0] = true ∧ (filterDataM pAll [row0]).1 = [row0] :=
  ⟨by decide, filterData_no_mutation pAll [row0] (by decide)⟩

/-- Claim C3: for every filter parameter set, the filtered result is a
sublist of the loaded source dataset, and re-applying filter_data to its
own output with the same parameters returns that output unchanged. -/
theorem filterData_subset_idem (p : Params) (ds : List Row)
    (h : dsLoaded ds = true) :
    (filterData p ds).Sublist ds ∧
      filterData p (filterData p ds) = filterData p ds := by
  have hds : ds.map coerceRow = ds := map_coerceRow_loaded h
  constructor
  · show ((ds.map coerceRow).filter (rowPred p)).Sublist ds
    rw [hds]
    exact List.filter_sublist ds
  · show ((((ds.map coerceRow).filter (rowPred p)).map coerceRow).filter (rowPred p))
        = (ds.map coerceRow).filter (rowPred p)
    rw [hds]
    have h2 : dsLoaded (ds.filter (rowPred p)) = true := dsLoaded_filter h
    rw [map_coerceRow_loaded h2, List.filter_filter]
    simp only [Bool.and_self]

/-- Witness for filterData_subset_idem at a concrete loaded dataset. -/
theorem filterData_subset_idem_witness :
    dsLoaded [row0] = true ∧
      ((filterData pAll [row0]).Sublist [row0] ∧
        filterData pAll (filterData pAll [row0]) = filterData pAll [row0]) :=
  ⟨by decide, filterData_subset_idem pAll [row0] (by decide)⟩

/-- Claim C8: the organization filter of filter_data agrees with the rule
as the specification words it (split the raw search on commas, trim and
lower-case each term, drop empty terms, keep a row when its lower-cased
organizations text contains any term as a substring, and keep every row
when the term list is empty); a missing or empty search string keeps all
rows, and the term acme matches the organizations text Acmesoft, because
matching is substring and not whole-word. -/
theorem orgSearch_spec (search orgsRaw : List Char) :
    orgMask (some search) (lcStr orgsRaw) = orgSpecKeep search orgsRaw ∧
      orgMask none (lcStr orgsRaw) = true ∧
      orgMask (some []) (lcStr orgsRaw) = true ∧
      orgMask (some "acme".toList) (lcStr "Acmesoft".toList) = true := by
  refine ⟨orgMask_eq_spec search orgsRaw, rfl, rfl, ?_⟩
  decide

/-! ### Time-series utilities: resample spans, rolling windows -/

/-- The smallest element of a list of days, none when empty. -/
def minI : List Int → Option Int
  | [] => none
  | x :: t => some (t.foldl min x)

/-- The largest element of a list of days, none when empty. -/
def maxI : List Int → Option Int
  | [] => none
  | x :: t => some (t.foldl max x)

/-- The consecutive run of days from a to b inclusive. -/
def intRange (a b : Int) : List Int :=
  (List.range ((b - a).toNat + 1)).map (fun (k : ℕ) => a + (k : Int))

/-- The calendar-day index a resample by day produces: every day from the
smallest to the largest date present, empty input giving an empty index. -/
def spanDays (l : List Int) : List Int :=
  match minI l, maxI l with
  | some a, some b => intRange a b
  | _, _ => []

theorem foldl_min_le_init (t : List Int) (x : Int) : t.foldl min x ≤ x := by
  induction t generalizing x with
  | nil => exact le_refl x
  | cons y u ih =>
    show u.foldl min (min x y) ≤ x
    exact le_trans (ih (min x y)) (min_le_left x y)

theorem foldl_min_le {t : List Int} {x v : Int} (hv : v ∈ x :: t) :
    t.foldl min x ≤ v := by
  induction t generalizing x with
  | nil =>
    rw [List.mem_singleton] at hv
    subst hv
    exact le_refl _
  | cons y u ih =>
    show (u.foldl min (min x y)) ≤ v
    rcases List.mem_cons.mp hv with rfl | h2
    · exact le_trans (foldl_min_le_init u _) (min_le_left v y)
    · rcases List.mem_cons.mp h2 with rfl | h3
      · exact le_trans (foldl_min_le_init u _) (min_le_right x v)
      · exact ih (List.mem_cons_of_mem _ h3)

theorem le_foldl_max_init (t : List Int) (x : Int) : x ≤ t.foldl max x := by
  induction t generalizing x with
  | nil => exact le_refl x
  | cons y u ih =>
    show x ≤ u.foldl max (max x y)
    exact le_trans (le_max_left x y) (ih (max x y))

theorem le_foldl_max {t : List Int} {x v : Int} (hv : v ∈ x :: t) :
    v ≤ t.foldl max x := by
  induction t generalizing x with
  | nil =>
    rw [List.mem_singleton] at hv
    subst hv
    exact le_refl _
  | cons y u ih =>
    show v ≤ (u.foldl max (max x y))
    rcases List.mem_cons.mp hv with rfl | h2
    · exact le_trans (le_max_left v y) (le_foldl_max_init u _)
    · rcases List.mem_cons.mp h2 with rfl | h3
      · exact le_trans (le_max_right x v) (le_foldl_max_init u _)
      · exact ih (List.mem_cons_of_mem _ h3)

theorem minI_le {l : List Int} {a v : Int} (h : minI l = some a) (hv : v ∈ l) :
    a ≤ v := by
  cases l with
  | nil => exact absurd hv (List.not_mem_nil v)
  | cons x t =>
    unfold minI at h
    rw [Option.some.injEq] at h
    subst h
    exact foldl_min_le hv

theorem le_maxI {l : List Int} {b v : Int} (h : maxI l = some b) (hv : v ∈ l) :
    v ≤ b := by
  cases l with
  | nil => exact absurd hv (List.not_mem_nil v)
  | cons x t =>
    unfold maxI at h
    rw [Option.some.injEq] at h
    subst h
    exact le_foldl_max hv

theorem mem_intRange {a b d : Int} (h1 : a ≤ d) (h2 : d ≤ b) :
    d ∈ intRange a b := by
  unfold intRange
  rw [List.mem_map]
  refine ⟨(d - a).toNat, List.mem_range.mpr ?_, ?_⟩ <;> omega

theorem intRange_nodup (a b : Int) : (intRange a b).Nodup := by
  unfold intRange
  refine List.Nodup.map ?_ (List.nodup_range _)
  intro m n hmn
  have h2 : a + (m : Int) = a + (n : Int) := hmn
  omega

theorem mem_spanDays {l : List Int} {v : Int} (hv : v ∈ l) :
    v ∈ spanDays l := by
  unfold spanDays
  cases l with
  | nil => exact absurd hv (List.not_mem_nil v)
  | cons x t =>
    show v ∈ intRange (t.foldl min x) (t.foldl max x)
    exact mem_intRange (foldl_min_le hv) (le_foldl_max hv)

theorem spanDays_nodup (l : List Int) : (spanDays l).Nodup := by
  unfold spanDays
  cases l with
  | nil => exact List.nodup_nil
  | cons x t => exact intRange_nodup _ _

/-- pandas cumsum over a column of counts. -/
def cumsum (l : List ℕ) : List ℕ :=
  (List.range l.length).map (fun i => (l.take (i + 1)).sum)

/-- pandas rolling with window 7 and the default minimum of 7 periods:
position i is defined only once seven window positions exist, and then
holds the sum of the seven entries ending at i. -/
def rolling7 (l : List ℚ) : List (Option ℚ) :=
  (List.range l.length).map (fun i =>
    if i < 6 then none else some (((l.drop (i - 6)).take 7).sum))

theorem sum_take_le {l : List ℕ} {i j : ℕ} (hij : i ≤ j) :
    (l.take i).sum ≤ (l.take j).sum := by
  have h1 : l.take i = (l.take j).take i := by
    rw [List.take_take, Nat.min_eq_left hij]
  have h2 : (l.take j).take i ++ (l.take j).drop i = l.take j :=
    List.take_append_drop i (l.take j)
  calc (l.take i).sum = ((l.take j).take i).sum := by rw [h1]
    _ ≤ ((l.take j).take i).sum + ((l.take j).drop i).sum := Nat.le_add_right _ _
    _ = (l.take j).sum := by rw [← List.sum_append, h2]

/-! ### Daily, cumulative and momentum series (update_all, src/app.py
lines 1484-1543) -/

/-- The dates present among the filtered rows; rows with NaT are dropped,
as a datetime index drops them on resample. -/
def datedDays (rows : List Row) : List Int := rows.filterMap (fun r => r.date)

/-- The resample-by-day event count for one day. -/
def cntDate (rows : List Row) (d : Int) : ℕ :=
  (rows.filter (fun r => r.date = some d)).length

/-- The daily event-count series: resample by calendar day over the span
from the earliest to the latest date present, counting rows per day, gap
days holding zero. -/
def dailySeries (rows : List Row) : List (Int × ℕ) :=
  (spanDays (datedDays rows)).map (fun d => (d, cntDate rows d))

/-- The cumulative event-count series: the daily count series with a
cumsum column. -/
def cumulativeSeries (rows : List Row) : List (Int × ℕ) :=
  (spanDays (datedDays rows)).zip
    (cumsum ((spanDays (datedDays rows)).map (cntDate rows)))

/-- The rows surviving the dropna over date and participants_numeric at
the head of the momentum computation, as (date, participant-count) pairs. -/
def momPairs (rows : List Row) : List (Int × ℚ) :=
  rows.filterMap (fun r =>
    match r.date, r.size_mean with
    | some d, some s => some (d, s)
    | _, _ => none)

/-- The resampled daily sum over the momentum pairs. -/
def pSum (ps : List (Int × ℚ)) (d : Int) : ℚ :=
  ((ps.filter (fun p => p.1 = d)).map (fun p => p.2)).sum

/-- The resampled daily count over the momentum pairs. -/
def pCnt (ps : List (Int × ℚ)) (d : Int) : ℕ :=
  (ps.filter (fun p => p.1 = d)).length

/-- The day index of the momentum series: the resample span of the
dropna-surviving rows. -/
def momDays (rows : List Row) : List Int :=
  spanDays ((momPairs rows).map (fun p => p.1))

/-- The per-day product sum times count, before the rolling window. -/
def momRaw (rows : List Row) : List ℚ :=
  (momDays rows).map
    (fun d => pSum (momPairs rows) d * (pCnt (momPairs rows) d : ℚ))

/-- The momentum series of update_all: per-day sum times count followed by
rolling(7).sum(). -/
def momentum (rows : List Row) : List (Option ℚ) := rolling7 (momRaw rows)

/-- Daily participant sum over rows having both a date equal to d and a
non-null participant count. -/
def dailySumNN (rows : List Row) (d : Int) : ℚ :=
  ((rows.filter (fun r => decide (r.date = some d) && r.size_mean.isSome)).filterMap
    (fun r => r.size_mean)).sum

/-- Daily count of rows having both a date equal to d and a non-null
participant count. -/
def dailyCntNN (rows : List Row) (d : Int) : ℕ :=
  (rows.filter (fun r => decide (r.date = some d) && r.size_mean.isSome)).length

theorem momPairs_cons (r : Row) (t : List Row) :
    momPairs (r :: t) =
      match r.date, r.size_mean with
      | some d, some s => (d, s) :: momPairs t
      | _, _ => momPairs t := by
  unfold momPairs
  rw [List.filterMap_cons]
  cases r.date <;> cases r.size_mean <;> rfl

theorem pSum_momPairs (rows : List Row) (d : Int) :
    pSum (momPairs rows) d = dailySumNN rows d := by
  induction rows with
  | nil => rfl
  | cons r t ih =>
    rw [show dailySumNN (r :: t) d
        = (((r :: t).filter (fun r => decide (r.date = some d) && r.size_mean.isSome)).filterMap
            (fun r => r.size_mean)).sum from rfl]
    rw [List.filter_cons]
    cases hd : r.date with
    | none =>
      rw [momPairs_cons, hd]
      simp only [hd, Bool.false_and, decide_False]
      cases r.size_mean <;> exact ih
    | some d2 =>
      cases hs : r.size_mean with
      | none =>
        rw [momPairs_cons, hd, hs]
        simp only [hd, hs, Option.isSome_none, Bool.and_false]
        exact ih
      | some s =>
        rw [momPairs_cons, hd, hs]
        show pSum ((d2, s) :: momPairs t) d = _
        unfold pSum
        rw [List.filter_cons]
        by_cases hdd : d2 = d
        · subst hdd
          simp only [hd, hs, decide_True, Option.isSome_some, Bool.and_true, if_true]
          rw [List.filterMap_cons]
          simp only [hs]
          show (s :: ((momPairs t).filter (fun p => p.1 = d2)).map (fun p => p.2)).sum
              = (s :: ((t.filter (fun r => decide (r.date = some d2) && r.size_mean.isSome)).filterMap
                  (fun r => r.size_mean))).sum
          rw [List.sum_cons, List.sum_cons]
          exact congrArg (s + ·) ih
        · simp only [hdd, decide_eq_true_eq, if_neg]
          have : (decide (some d2 = some d) && (some s).isSome) = false := by
            simp [hdd]
          rw [this]
          simp only [Bool.false_eq_true, if_false]
          exact ih

theorem pCnt_momPairs (rows : List Row) (d : Int) :
    pCnt (momPairs rows) d = dailyCntNN rows d := by
  induction rows with
  | nil => rfl
  | cons r t ih =>
    rw [show dailyCntNN (r :: t) d
        = ((r :: t).filter (fun r => decide (r.date = some d) && r.size_mean.isSome)).length
        from rfl]
    rw [List.filter_cons]
    cases hd : r.date with
    | none =>
      rw [momPairs_cons, hd]
      simp only [hd, Bool.false_and, decide_False]
      cases r.size_mean <;> exact ih
    | some d2 =>
      cases hs : r.size_mean with
      | none =>
        rw [momPairs_cons, hd, hs]
        simp only [hd, hs, Option.isSome_none, Bool.and_false]
        exact ih
      | some s =>
        rw [momPairs_cons, hd, hs]
        show pCnt ((d2, s) :: momPairs t) d = _
        unfold pCnt
        rw [List.filter_cons]
        by_cases hdd : d2 = d
        · subst hdd
          simp only [hd, hs, decide_True, Option.isSome_some, Bool.and_true, if_true]
          rw [List.length_cons, List.length_cons]
          exact congrArg (· + 1) ih
        · simp only [hdd, decide_eq_true_eq, if_neg]
          have : (decide (some d2 = some d) && (some s).isSome) = false := by
            simp [hdd]
          rw [this]
          simp only [Bool.false_eq_true, if_false]
          exact ih

theorem take_sum_range (l : List ℚ) :
    ∀ b, b ≤ l.length →
      (l.take b).sum = ((List.range b).map (fun k => l.getD k 0)).sum := by
  induction l with
  | nil =>
    intro b hb
    have h0 : b = 0 := Nat.le_zero.mp hb
    subst h0
    rfl
  | cons x t ih =>
    intro b hb
    cases b with
    | zero => rfl
    | succ b2 =>
      rw [List.take_succ_cons, List.sum_cons, List.range_succ_eq_map, List.map_cons,
        List.sum_cons, List.map_map]
      have hco : ((fun k => (x :: t).getD k 0) ∘ Nat.succ) = (fun k => t.getD k 0) := by
        funext k
        rfl
      rw [hco, ih b2 (Nat.succ_le_succ_iff.mp hb)]
      rfl

theorem getD_drop (l : List ℚ) (a k : ℕ) :
    (l.drop a).getD k 0 = l.getD (a + k) 0 := by
  rw [List.getD_eq_getElem?_getD, List.getD_eq_getElem?_getD, List.getElem?_drop]

theorem rolling7_getElem (l : List ℚ) (i : ℕ) (h6 : 6 ≤ i) (hi : i < l.length) :
    (rolling7 l)[i]? = some (some (((l.drop (i - 6)).take 7).sum)) := by
  unfold rolling7
  rw [List.getElem?_map, List.getElem?_range hi, Option.map_some']
  rw [if_neg (by omega)]

theorem intRange_getElem {a b : Int} {j : ℕ} (hj : j < (intRange a b).length) :
    (intRange a b)[j]? = some (a + (j : Int)) := by
  unfold intRange at hj ⊢
  rw [List.length_map, List.length_range] at hj
  rw [List.getElem?_map, List.getElem?_range hj, Option.map_some']

theorem spanDays_nil : spanDays [] = [] := rfl

theorem spanDays_eq {l : List Int} (hne : l ≠ []) :
    ∃ a b2, minI l = some a ∧ maxI l = some b2 ∧ spanDays l = intRange a b2 := by
  cases l with
  | nil => exact absurd rfl hne
  | cons x t => exact ⟨_, _, rfl, rfl, rfl⟩

theorem zip_getElem_some {α β : Type} {as : List α} {bs : List β} {i : ℕ}
    {x : α × β} (h : (as.zip bs)[i]? = some x) :
    as[i]? = some x.1 ∧ bs[i]? = some x.2 := by
  induction as generalizing bs i with
  | nil => simp [List.zip] at h
  | cons a t ih =>
    cases bs with
    | nil => simp [List.zip] at h
    | cons b u =>
      cases i with
      | zero =>
        rw [List.zip_cons_cons, List.getElem?_cons_zero] at h
        have h1 : ((a, b) : α × β) = x := (Option.some.injEq _ _).mp h
        subst h1
        constructor
        · rw [List.getElem?_cons_zero]
        · rw [List.getElem?_cons_zero]
      | succ i2 =>
        rw [List.zip_cons_cons, List.getElem?_cons_succ] at h
        obtain ⟨h1, h2⟩ := ih h
        constructor
        · rw [List.getElem?_cons_succ]
          exact h1
        · rw [List.getElem?_cons_succ]
          exact h2

/-- Claim C1 (amended): for every index at least six positions into the
momentum series, the momentum value is the sum, over the seven-day window
ending at that day, of dailySum times dailyCount, where both the daily sum
and the daily count range over the rows surviving the dropna: rows with a
non-null date AND a non-null participant count.  (The claim as frozen says
the daily event count counts all rows of the day; the code drops rows with
a null participants_numeric before resampling, so the count only counts
rows that also carry a participant count — see the counterexample.) -/
theorem momentumSpec (rows : List Row) (i : ℕ) (d : Int)
    (h6 : 6 ≤ i) (hd : (momDays rows)[i]? = some d) :
    (momentum rows)[i]? = some (some (((List.range 7).map
      (fun (k : ℕ) => dailySumNN rows (d - 6 + (k : Int)) *
        (dailyCntNN rows (d - 6 + (k : Int)) : ℚ))).sum)) := by
  have hne : (momPairs rows).map (fun p => p.1) ≠ [] := by
    intro h0
    rw [show momDays rows = spanDays ((momPairs rows).map (fun p => p.1)) from rfl,
      h0, spanDays_nil] at hd
    simp at hd
  obtain ⟨a, b2, hmin, hmax, hspan⟩ := spanDays_eq hne
  have hdays : momDays rows = intRange a b2 := hspan
  have hi : i < (momDays rows).length := by
    by_contra hcon
    rw [List.getElem?_eq_none (Nat.le_of_not_lt hcon)] at hd
    exact Option.noConfusion hd
  have hda : d = a + (i : Int) := by
    rw [hdays] at hd
    rw [intRange_getElem (by rw [← hdays]; exact hi)] at hd
    exact ((Option.some.injEq _ _).mp hd).symm
  have hlen : (momRaw rows).length = (momDays rows).length := List.length_map _ _
  have hi2 : i < (momRaw rows).length := by rw [hlen]; exact hi
  rw [show momentum rows = rolling7 (momRaw rows) from rfl]
  rw [rolling7_getElem _ i h6 hi2]
  have hdrop : (((momRaw rows).drop (i - 6)).take 7).sum
      = ((List.range 7).map (fun k => (momRaw rows).getD ((i - 6) + k) 0)).sum := by
    have ht := take_sum_range ((momRaw rows).drop (i - 6)) 7
      (by rw [List.length_drop]; omega)
    rw [ht]
    refine congrArg List.sum (List.map_congr_left ?_)
    intro k hk
    exact getD_drop _ _ _
  rw [hdrop]
  refine congrArg (fun z => some (some z)) (congrArg List.sum (List.map_congr_left ?_))
  intro k hk
  rw [List.mem_range] at hk
  have hjlt : (i - 6) + k < (momDays rows).length := by omega
  have hraw : (momRaw rows).getD ((i - 6) + k) 0
      = pSum (momPairs rows) (a + (((i - 6) + k : ℕ) : Int)) *
        (pCnt (momPairs rows) (a + (((i - 6) + k : ℕ) : Int)) : ℚ) := by
    unfold momRaw
    rw [List.getD_eq_getElem?_getD, List.getElem?_map, hdays,
      intRange_getElem (by rw [← hdays]; exact hjlt), Option.map_some']
    rfl
  rw [hraw, pSum_momPairs, pCnt_momPairs]
  have harith : a + (((i - 6) + k : ℕ) : Int) = d - 6 + (k : Int) := by
    rw [hda]
    push_cast
    omega
  rw [harith]

/-- A row carrying only a date and a participant count, as the momentum
and cumulative computations see rows. -/
def mkDated (d : Int) (s : Option ℚ) : Row :=
  { row0 with date := some d, size_mean := s }

/-- Seven consecutive days with one counted event of size one each, plus
one extra event on the first day whose participant count is missing. -/
def exMom : List Row :=
  [mkDated 0 (some 1), mkDated 0 none, mkDated 1 (some 1), mkDated 2 (some 1),
   mkDated 3 (some 1), mkDated 4 (some 1), mkDated 5 (some 1), mkDated 6 (some 1)]

/-- Witness for momentumSpec at the concrete series exMom, index 6. -/
theorem momentumSpec_witness :
    (momentum exMom)[6]? = some (some (((List.range 7).map
      (fun (k : ℕ) => dailySumNN exMom ((6 : Int) - 6 + (k : Int)) *
        (dailyCntNN exMom ((6 : Int) - 6 + (k : Int)) : ℚ))).sum)) :=
  momentumSpec exMom 6 6 (by decide) (by decide)

/-- The momentum series exactly as the frozen claim C1 words it: the daily
event count counts all rows of the day (not only those with a participant
count), days with zero events count zero, and the same trailing rolling
7-window sum is applied. -/
def claimMomentum (rows : List Row) : List (Option ℚ) :=
  let days := spanDays (datedDays rows)
  rolling7 (days.map (fun d => dailySumNN rows d * (cntDate rows d : ℚ)))

/-- Counterexample to claim C1 as frozen: on exMom the code momentum at
day six is 7 (the null-count row on day zero is dropped before the daily
event count is taken), while the claim value is 8 (it counts that row). -/
theorem momentumClaimDiverges :
    (momentum exMom)[6]? = some (some 7) ∧
      (claimMomentum exMom)[6]? = some (some 8) ∧ (7 : ℚ) ≠ 8 := by
  refine ⟨?_, ?_, by norm_num⟩
  · have h := momentumSpec exMom 6 6 (by norm_num) (by decide)
    rw [h]
    have hval : ((List.range 7).map
        (fun (k : ℕ) => dailySumNN exMom ((6 : Int) - 6 + (k : Int)) *
          (dailyCntNN exMom ((6 : Int) - 6 + (k : Int)) : ℚ))).sum = 7 := by
      have hr : List.range 7 = [0, 1, 2, 3, 4, 5, 6] := by decide
      rw [hr]
      norm_num [dailySumNN, dailyCntNN, exMom, mkDated, row0, List.filter,
        List.filterMap_cons, List.filterMap_nil, List.sum_cons, List.sum_nil]
    rw [hval]
  · have hdays : spanDays (datedDays exMom) = [0, 1, 2, 3, 4, 5, 6] := by decide
    have hlen : 6 < ((spanDays (datedDays exMom)).map
        (fun d => dailySumNN exMom d * (cntDate exMom d : ℚ))).length := by
      rw [hdays]
      norm_num
    have h2 := rolling7_getElem ((spanDays (datedDays exMom)).map
      (fun d => dailySumNN exMom d * (cntDate exMom d : ℚ))) 6 (by norm_num) hlen
    rw [show claimMomentum exMom = rolling7 ((spanDays (datedDays exMom)).map
      (fun d => dailySumNN exMom d * (cntDate exMom d : ℚ))) from rfl]
    rw [h2, hdays]
    norm_num [dailySumNN, cntDate, exMom, mkDated, row0, List.filter,
      List.filterMap_cons, List.filterMap_nil, List.sum_cons, List.sum_nil]

theorem map_add_sum (days : List Int) (f g : Int → ℕ) :
    (days.map (fun d => f d + g d)).sum = (days.map f).sum + (days.map g).sum := by
  induction days with
  | nil => rfl
  | cons d t ih =>
    simp only [List.map_cons, List.sum_cons, ih]
    omega

theorem indicator_count (days : List Int) (v : Int) :
    (days.map (fun d => if v = d then 1 else 0)).sum = days.count v := by
  induction days with
  | nil => rfl
  | cons d t ih =>
    rw [List.map_cons, List.sum_cons, ih, List.count_cons]
    by_cases h : v = d
    · rw [if_pos h, if_pos (beq_iff_eq.mpr h.symm)]
      omega
    · rw [if_neg h, if_neg (fun hc => h ((beq_iff_eq.mp hc).symm))]
      omega

theorem cntDate_cons (r : Row) (t : List Row) (d : Int) :
    cntDate (r :: t) d = (if r.date = some d then 1 else 0) + cntDate t d := by
  unfold cntDate
  rw [List.filter_cons]
  by_cases h : r.date = some d
  · simp [h]
    omega
  · simp [h]

theorem map_zero_sum (days : List Int) : (days.map (fun _ => (0 : ℕ))).sum = 0 := by
  induction days with
  | nil => rfl
  | cons d t ih => simp [ih]

theorem sum_cntDate (days : List Int) (hnd : days.Nodup) (rows : List Row)
    (hc : ∀ r ∈ rows, ∀ v, r.date = some v → v ∈ days) :
    (days.map (fun d => cntDate rows d)).sum
      = (rows.filter (fun r => r.date.isSome)).length := by
  induction rows with
  | nil => simp [cntDate]
  | cons r t ih =>
    have hrec := ih (fun r2 hr2 v hv => hc r2 (List.mem_cons_of_mem _ hr2) v hv)
    have hstep : days.map (fun d => cntDate (r :: t) d)
        = days.map (fun d => (if r.date = some d then 1 else 0) + cntDate t d) :=
      List.map_congr_left (fun d _ => cntDate_cons r t d)
    rw [hstep, map_add_sum, hrec, List.filter_cons]
    cases hrd : r.date with
    | none =>
      have hz : days.map (fun d => if (none : Option Int) = some d then 1 else 0)
          = days.map (fun _ => 0) :=
        List.map_congr_left (fun d _ => by simp)
      rw [hz, map_zero_sum, if_neg (by simp)]
      omega
    | some v =>
      have hvmem : v ∈ days := hc r (List.mem_cons_self _ _) v hrd
      have hz : days.map (fun d => if some v = some d then 1 else 0)
          = days.map (fun d => if v = d then 1 else 0) :=
        List.map_congr_left (fun d _ => by simp)
      have hcond : ((some v : Option Int).isSome = true) := rfl
      rw [hz, indicator_count, List.count_eq_one_of_mem hnd hvmem, if_pos hcond,
        List.length_cons]
      omega

theorem cumsum_getElem {l : List ℕ} {i : ℕ} {s : ℕ}
    (h : (cumsum l)[i]? = some s) : s = (l.take (i + 1)).sum ∧ i < l.length := by
  unfold cumsum at h
  rw [List.getElem?_map] at h
  by_cases hin : i < l.length
  · rw [List.getElem?_range hin, Option.map_some'] at h
    exact ⟨((Option.some.injEq _ _).mp h).symm, hin⟩
  · rw [List.getElem?_eq_none (by rw [List.length_range]; omega)] at h
    exact Option.noConfusion h

/-- Claim C4 (amended): the cumulative event-count series is non-decreasing
from day to day, and the value on the last day equals the number of
filtered rows whose date is non-null.  (The claim as frozen says the last
value equals totalEvents, the count of all filtered rows; rows with a null
date are dropped by the datetime resample but still counted by
totalEvents, so equality with totalEvents holds exactly when every
filtered row carries a date — see the counterexample.) -/
theorem cumulativeSpec (rows : List Row) :
    (∀ (i j : ℕ) (x y : Int × ℕ), i ≤ j → (cumulativeSeries rows)[i]? = some x →
        (cumulativeSeries rows)[j]? = some y → x.2 ≤ y.2) ∧
    (∀ (x : Int × ℕ), (cumulativeSeries rows).getLast? = some x →
        x.2 = (rows.filter (fun r => r.date.isSome)).length) := by
  constructor
  · intro i j x y hij hx hy
    obtain ⟨hx1, hx2⟩ := zip_getElem_some hx
    obtain ⟨hy1, hy2⟩ := zip_getElem_some hy
    obtain ⟨hxv, hxl⟩ := cumsum_getElem hx2
    obtain ⟨hyv, hyl⟩ := cumsum_getElem hy2
    rw [hxv, hyv]
    exact sum_take_le (Nat.succ_le_succ hij)
  · intro x hx
    rw [List.getLast?_eq_getElem?] at hx
    obtain ⟨hx1, hx2⟩ := zip_getElem_some hx
    obtain ⟨hxv, hxl⟩ := cumsum_getElem hx2
    set days := spanDays (datedDays rows) with hdays
    set cnts := days.map (cntDate rows) with hcnts
    have hclen : cnts.length = days.length := List.length_map _ _
    have hzlen : (cumulativeSeries rows).length = days.length := by
      rw [show cumulativeSeries rows = days.zip (cumsum cnts) from rfl]
      rw [List.length_zip]
      rw [show (cumsum cnts).length = cnts.length from by
        rw [show cumsum cnts = (List.range cnts.length).map
          (fun i => (cnts.take (i + 1)).sum) from rfl]
        rw [List.length_map, List.length_range]]
      rw [hclen]
      exact Nat.min_self _
    have hlen1 : 1 ≤ days.length := by
      rw [hcnts] at hxl
      rw [List.length_map] at hxl
      omega
    have hidx : (cumulativeSeries rows).length - 1 + 1 = cnts.length := by
      rw [hzlen, hclen]
      omega
    rw [hidx] at hxv
    have htake : cnts.take cnts.length = cnts := List.take_length cnts
    rw [htake] at hxv
    rw [hxv, hcnts]
    exact sum_cntDate days (spanDays_nodup _) rows
      (fun r hr v hv => mem_spanDays (List.mem_filterMap.mpr ⟨r, hr, hv⟩))

/-- Two dated events two days apart: the cumulative series is defined and
spans a three-day index. -/
def exCumW : List Row := [mkDated 0 (some 1), mkDated 2 (some 1)]

/-- Witness for cumulativeSpec on exCumW: monotonicity between the first
and last positions, and the closing value equals the dated-row count. -/
theorem cumulativeSpec_witness :
    ((0 : Int), (1 : ℕ)).2 ≤ ((2 : Int), (2 : ℕ)).2 ∧
      ((2 : Int), (2 : ℕ)).2 = (exCumW.filter (fun r => r.date.isSome)).length :=
  ⟨(cumulativeSpec exCumW).1 0 2 (0, 1) (2, 2) (by norm_num) (by decide) (by decide),
   (cumulativeSpec exCumW).2 (2, 2) (by decide)⟩

/-- One dated event plus one row whose date is null. -/
def exCum : List Row := [mkDated 0 (some 1), row0]

/-- Counterexample to claim C4 as frozen: on exCum the series spans its
full filtered date range (the single day 0) and closes at 1, while
totalEvents is 2, because the null-date row is dropped by the resample but
still counted by len(dff). -/
theorem cumulativeClaimDiverges :
    (cumulativeSeries exCum).getLast? = some (0, 1) ∧
      exCum.length = 2 ∧ (1 : ℕ) ≠ 2 :=
  ⟨by decide, by decide, by decide⟩

/-! ### Coordinate jitter (jitter_coords, src/app.py lines 857-880) -/

/-- Round half to even, the rounding numpy uses. -/
def roundHE (x : ℚ) : Int :=
  let f := Int.floor x
  if x - f < 1/2 then f
  else if (1 : ℚ)/2 < x - f then f + 1
  else if f % 2 = 0 then f else f + 1

/-- Round a coordinate to 5 decimal places, the grouping precision of
jitter_coords. -/
def round5 (x : ℚ) : ℚ := (roundHE (x * 100000) : ℚ) / 100000

/-- The grouping key of jitter_coords: the rounded latitude and longitude;
distinct rounded floats render as distinct strings and NaN renders as nan,
so joining the two rendered values with an underscore groups rows exactly
by this pair. -/
def rKey (r : Row) : Option ℚ × Option ℚ := (r.lat.map round5, r.lon.map round5)

/-- The list of row positions sharing one rounded-coordinate key, in row
order, as df.index[coords == coord] produces it. -/
def grpIdxs (rows : List Row) (key : Option ℚ × Option ℚ) : List ℕ :=
  (List.range rows.length).filter (fun j => (rows[j]?.map rKey) = some key)

/-- A coordinate axis value after jitter: either the original (possibly
null) value, or a point on the jitter circle described by its center, the
radius, and the angle index: the latitude is center plus radius times the
cosine of two pi times k over m, the longitude uses the sine. -/
inductive JAx
  | raw (q : Option ℚ)
  | circ (center radius : ℚ) (k m : ℕ)
  deriving DecidableEq, Repr

/-- A row together with its jittered coordinates. -/
structure JRow where
  row : Row
  latJ : JAx
  lonJ : JAx
  deriving DecidableEq, Repr

instance : Inhabited JRow := ⟨⟨row0, .raw none, .raw none⟩⟩

/-- Placement of the row at position i under jitter_coords given its
rounded-coordinate group: rows in a singleton group are untouched, the
first row of a larger group keeps its coordinate as the circle center,
and the row at position p of the remainder of its group is placed on the
circle at angle index p out of group size minus one; an axis whose group
value is NaN stays NaN, since NaN plus anything is NaN. -/
def jitterPlace (amt : ℚ) (rows : List Row) (i : ℕ) (r : Row) : List ℕ → JRow
  | [] => ⟨r, .raw r.lat, .raw r.lon⟩
  | i0 :: rest =>
    if (i0 :: rest).length ≤ 1 then ⟨r, .raw r.lat, .raw r.lon⟩
    else if i = i0 then ⟨r, .raw r.lat, .raw r.lon⟩
    else
      ⟨r,
       match (rows[i0]?.getD r).lat with
       | none => .raw r.lat
       | some cl => .circ cl amt (rest.indexOf i) ((i0 :: rest).length - 1),
       match (rows[i0]?.getD r).lon with
       | none => .raw r.lon
       | some cl2 => .circ cl2 amt (rest.indexOf i) ((i0 :: rest).length - 1)⟩

/-- The fate of the row at position i: dispatch on its group. -/
def jitterOne (amt : ℚ) (rows : List Row) (i : ℕ) (r : Row) : JRow :=
  jitterPlace amt rows i r (grpIdxs rows (rKey r))

/-- jitter_coords over the whole filtered frame. -/
def jitterCoords (amt : ℚ) (rows : List Row) : List JRow :=
  rows.enum.map (fun p => jitterOne amt rows p.1 p.2)

/-- The real latitude a jittered axis value denotes. -/
noncomputable def latReal : JAx → Option ℝ
  | .raw q => q.map (fun x => ((x : ℚ) : ℝ))
  | .circ c r k m =>
    some ((c : ℝ) + (r : ℝ) * Real.cos (2 * Real.pi * (k : ℝ) / (m : ℝ)))

/-- The real longitude a jittered axis value denotes. -/
noncomputable def lonReal : JAx → Option ℝ
  | .raw q => q.map (fun x => ((x : ℚ) : ℝ))
  | .circ c r k m =>
    some ((c : ℝ) + (r : ℝ) * Real.sin (2 * Real.pi * (k : ℝ) / (m : ℝ)))

theorem nodup_indexOf {α : Type} [DecidableEq α] {l : List α} {p : ℕ} {a : α}
    (hnd : l.Nodup) (h : l[p]? = some a) : l.indexOf a = p := by
  induction l generalizing p with
  | nil => simp at h
  | cons x t ih =>
    cases p with
    | zero =>
      rw [List.getElem?_cons_zero] at h
      have hxa : x = a := (Option.some.injEq _ _).mp h
      subst hxa
      exact List.indexOf_cons_self x t
    | succ p2 =>
      rw [List.getElem?_cons_succ] at h
      have hmem : a ∈ t := List.getElem?_mem h
      have hne : x ≠ a := fun he => (List.nodup_cons.mp hnd).1 (he ▸ hmem)
      rw [List.indexOf_cons_ne t hne, ih (List.nodup_cons.mp hnd).2 h]

theorem grpIdxs_nodup (rows : List Row) (key : Option ℚ × Option ℚ) :
    (grpIdxs rows key).Nodup :=
  List.Nodup.filter _ (List.nodup_range _)

/-- Claim C5: jitter_coords groups rows by their coordinates rounded to 5
decimal places; a row in a singleton group is untouched, the first row of
a larger group keeps its coordinate, and the row at position p of the
rest of its group (the p+1st non-center row) is placed on the circle of
radius amt around the center coordinate at angle two pi times p over the
group size minus one (cosine on the latitude axis, sine on the longitude
axis); an axis that is NaN across its group stays NaN.  The placement is
a pure function of the row order, hence deterministic. -/
theorem jitterSpec (amt : ℚ) (rows : List Row) (i : ℕ) (r : Row)
    (hi : rows[i]? = some r) :
    ((jitterCoords amt rows).length = rows.length) ∧
    ((jitterCoords amt rows)[i]? = some (jitterOne amt rows i r)) ∧
    ((grpIdxs rows (rKey r)).length = 1 →
      jitterOne amt rows i r = ⟨r, .raw r.lat, .raw r.lon⟩) ∧
    (∀ i0 rest, grpIdxs rows (rKey r) = i0 :: rest → rest ≠ [] →
      ((i = i0 → jitterOne amt rows i r = ⟨r, .raw r.lat, .raw r.lon⟩) ∧
       (∀ p c, rest[p]? = some i → rows[i0]? = some c →
         ((jitterOne amt rows i r).latJ = (match c.lat with
            | none => JAx.raw r.lat
            | some cl => JAx.circ cl amt p rest.length)) ∧
         ((jitterOne amt rows i r).lonJ = (match c.lon with
            | none => JAx.raw r.lon
            | some cl2 => JAx.circ cl2 amt p rest.length)) ∧
         (∀ cl, c.lat = some cl →
           latReal (jitterOne amt rows i r).latJ
             = some ((cl : ℝ) + (amt : ℝ) *
                 Real.cos (2 * Real.pi * (p : ℝ) / (rest.length : ℝ)))) ∧
         (∀ cl2, c.lon = some cl2 →
           lonReal (jitterOne amt rows i r).lonJ
             = some ((cl2 : ℝ) + (amt : ℝ) *
                 Real.sin (2 * Real.pi * (p : ℝ) / (rest.length : ℝ))))))) := by
  refine ⟨?_, ?_, ?_, ?_⟩
  · unfold jitterCoords
    rw [List.length_map, List.enum_length]
  · unfold jitterCoords
    rw [List.getElem?_map, List.getElem?_enum, hi, Option.map_some', Option.map_some']
  · intro hlen
    unfold jitterOne
    cases hg : grpIdxs rows (rKey r) with
    | nil => rfl
    | cons i0 rest =>
      rw [hg] at hlen
      simp only [jitterPlace]
      rw [if_pos (by omega)]
  · intro i0 rest hgrp hne
    have hlen2 : ¬ (grpIdxs rows (rKey r)).length ≤ 1 := by
      rw [hgrp, List.length_cons]
      cases rest with
      | nil => exact absurd rfl hne
      | cons a t => simp
    have hlen3 : ¬ (i0 :: rest).length ≤ 1 := by rw [hgrp] at hlen2; exact hlen2
    constructor
    · intro hii0
      unfold jitterOne
      rw [hgrp]
      simp only [jitterPlace]
      rw [if_neg hlen3, if_pos hii0]
    · intro p c hp hc
      have hnd := grpIdxs_nodup rows (rKey r)
      rw [hgrp] at hnd
      have himem : i ∈ rest := List.getElem?_mem hp
      have hii0 : ¬ i = i0 :=
        fun he => (List.nodup_cons.mp hnd).1 (he ▸ himem)
      have hidx : rest.indexOf i = p :=
        nodup_indexOf (List.nodup_cons.mp hnd).2 hp
      have hget : rows[i0]?.getD r = c := by rw [hc]; rfl
      have hjit : jitterOne amt rows i r =
          ⟨r,
           match c.lat with
           | none => .raw r.lat
           | some cl => .circ cl amt p rest.length,
           match c.lon with
           | none => .raw r.lon
           | some cl2 => .circ cl2 amt p rest.length⟩ := by
        unfold jitterOne
        rw [hgrp]
        simp only [jitterPlace]
        rw [if_neg hlen3, if_neg hii0, hget, hidx, List.length_cons,
          Nat.succ_sub_one]
      refine ⟨by rw [hjit], by rw [hjit], ?_, ?_⟩
      · intro cl hcl
        rw [hjit]
        show latReal (match c.lat with
          | none => JAx.raw r.lat
          | some cl => JAx.circ cl amt p rest.length) = _
        rw [hcl]
        rfl
      · intro cl2 hcl2
        rw [hjit]
        show lonReal (match c.lon with
          | none => JAx.raw r.lon
          | some cl2 => JAx.circ cl2 amt p rest.length) = _
        rw [hcl2]
        rfl

/-- A row at a fixed coordinate, repeated to form a duplicate group. -/
def rJ : Row := { row0 with lat := some 1, lon := some 2 }

/-- Three rows at the same coordinate. -/
def exJit : List Row := [rJ, rJ, rJ]

/-- Witness for jitterSpec: in the three-row duplicate group exJit the row
at position 1 is the first non-center row and lands on the circle at angle
index 0 out of 2 around the center coordinate. -/
theorem jitterSpec_witness :
    ((jitterOne (1/100) exJit 1 rJ).latJ = (match rJ.lat with
        | none => JAx.raw rJ.lat
        | some cl => JAx.circ cl (1/100) 0 ([1, 2] : List ℕ).length)) ∧
    ((jitterOne (1/100) exJit 1 rJ).lonJ = (match rJ.lon with
        | none => JAx.raw rJ.lon
        | some cl2 => JAx.circ cl2 (1/100) 0 ([1, 2] : List ℕ).length)) := by
  have hgrp : grpIdxs exJit (rKey rJ) = [0, 1, 2] := by
    simp [grpIdxs, exJit, List.range_succ]
  have h := (jitterSpec (1/100) exJit 1 rJ (by decide)).2.2.2 0 [1, 2] hgrp
    (by decide)
  have h2 := h.2 0 rJ (by decide) (by decide)
  exact ⟨h2.1, h2.2.1⟩


/-! ### Location label (update_all lines 1371-1379 and
aggregate_events_for_map lines 962-971, the vectorised np.where cascade) -/

/-- The np.where cascade that derives a location label for a row: the
stripped str() of the specific location when non-empty and not the string
nan, else the stripped str() of the locality likewise, else the str() of
the state followed by a comma-space and the str() of the date; a null
location or locality renders as nan, a null state as nan, and a null date
as NaT. -/
def labelCascade (r : Row) : List Char :=
  if strip (toStr r.location) ≠ [] ∧
      lcStr (strip (toStr r.location)) ≠ "nan".toList then
    strip (toStr r.location)
  else if strip (toStr r.locality) ≠ [] ∧
      lcStr (strip (toStr r.locality)) ≠ "nan".toList then
    strip (toStr r.locality)
  else
    toStr r.state ++ ", ".toList ++
      (match r.date with
       | some d => dateStr d
       | none => "NaT".toList)

/-- The stored location label: the cascade value, with an empty string
replaced by Unknown (the replace and fillna steps that follow the
np.where in the source). -/
def locationLabel (r : Row) : List Char :=
  if labelCascade r = [] then "Unknown".toList else labelCascade r

theorem labelCascade_ne_nil (r : Row) : labelCascade r ≠ [] := by
  unfold labelCascade
  by_cases h1 : strip (toStr r.location) ≠ [] ∧
      lcStr (strip (toStr r.location)) ≠ "nan".toList
  · rw [if_pos h1]
    exact h1.1
  · rw [if_neg h1]
    by_cases h2 : strip (toStr r.locality) ≠ [] ∧
        lcStr (strip (toStr r.locality)) ≠ "nan".toList
    · rw [if_pos h2]
      exact h2.1
    · rw [if_neg h2]
      intro hcon
      have hlen := congrArg List.length hcon
      rw [List.length_append, List.length_append] at hlen
      simp at hlen

/-- Claim C9 (amended): the derived map location label is the specific
location when present and not nan, else the locality likewise, else the
string state-comma-date where a missing state renders as nan and a
missing date as NaT; the Unknown replacement applies only to an empty or
null label, which the cascade never produces, so the label never defaults
to Unknown. -/
theorem locationLabelSpec (r : Row) :
    locationLabel r = labelCascade r ∧ labelCascade r ≠ [] := by
  refine ⟨?_, labelCascade_ne_nil r⟩
  unfold locationLabel
  rw [if_neg (fun h => labelCascade_ne_nil r h)]

/-- Counterexample to claim C9 as frozen: a row whose location, locality,
state and date are all missing gets the label nan-comma-NaT, not Unknown. -/
theorem locationLabelClaimDiverges :
    locationLabel row0 = "nan, NaT".toList ∧
      locationLabel row0 ≠ "Unknown".toList :=
  ⟨by decide, by decide⟩


/-! ### Map aggregation (aggregate_events_for_map, src/app.py lines
957-1009) -/

/-- A jittered row together with its stored location label. -/
structure LRow where
  jrow : JRow
  label : List Char
  deriving DecidableEq, Repr

instance : Inhabited LRow := ⟨⟨default, []⟩⟩

/-- One map marker: the aggregation of all label-sharing rows. -/
structure Marker where
  label : List Char
  lat : JAx
  lon : JAx
  count : ℕ
  sizeMean : Option ℚ
  deriving DecidableEq, Repr

/-- Whether an axis value is NaN after jitter: only an untouched null
value is; every circle placement is a real number. -/
def axIsNan : JAx → Bool
  | .raw none => true
  | .raw (some _) => false
  | .circ _ _ _ _ => false

/-- The dropna over lat and lon at the head of the aggregation. -/
def dropNoCoord (l : List LRow) : List LRow :=
  l.filter (fun x => !(axIsNan x.jrow.latJ) && !(axIsNan x.jrow.lonJ))

/-- The size_mean aggregator lambda: the mean of the non-null participant
counts of a group, NaN when the group has none. -/
def groupMean (g : List LRow) : Option ℚ :=
  if g.any (fun x => x.jrow.row.size_mean.isSome) then
    some ((g.filterMap (fun x => x.jrow.row.size_mean)).sum /
      ((g.filterMap (fun x => x.jrow.row.size_mean)).length : ℚ))
  else none

/-- aggregate_events_for_map: drop rows without coordinates, group by the
location label, and emit one marker per label carrying the first row
coordinate of the group, the row count (the size aggregator counts every
row, null titles included) and the group mean size.  pandas groupby
returns groups sorted by label; the order of the marker list is
immaterial to every property stated about it here, so first-appearance
order is used.  The hover, text and event-list columns are presentation
strings and are not modelled. -/
def aggregateEventsForMap (l : List LRow) : List Marker :=
  ((dropNoCoord l).map (fun x => x.label)).dedup.map (fun k =>
    { label := k
    , lat := (((dropNoCoord l).filter (fun x => x.label = k)).headD default).jrow.latJ
    , lon := (((dropNoCoord l).filter (fun x => x.label = k)).headD default).jrow.lonJ
    , count := ((dropNoCoord l).filter (fun x => x.label = k)).length
    , sizeMean := groupMean ((dropNoCoord l).filter (fun x => x.label = k)) })

theorem sumMapAdd {κ : Type} (keys : List κ) (f g : κ → ℕ) :
    (keys.map (fun k => f k + g k)).sum = (keys.map f).sum + (keys.map g).sum := by
  induction keys with
  | nil => rfl
  | cons d t ih =>
    simp only [List.map_cons, List.sum_cons, ih]
    omega

theorem countIndicator {κ : Type} [DecidableEq κ] (keys : List κ) (v : κ) :
    (keys.map (fun d => if v = d then 1 else 0)).sum = keys.count v := by
  induction keys with
  | nil => rfl
  | cons d t ih =>
    rw [List.map_cons, List.sum_cons, ih, List.count_cons]
    by_cases h : v = d
    · rw [if_pos h, if_pos (beq_iff_eq.mpr h.symm)]
      omega
    · rw [if_neg h, if_neg (fun hc => h ((beq_iff_eq.mp hc).symm))]
      omega

theorem sum_group_sizes {α κ : Type} [DecidableEq κ] (f : α → κ) (l : List α) :
    ((l.map f).dedup.map (fun k => (l.filter (fun x => f x = k)).length)).sum
      = l.length := by
  induction l with
  | nil => rfl
  | cons a t ih =>
    rw [List.map_cons]
    by_cases hmem : f a ∈ t.map f
    · rw [List.dedup_cons_of_mem hmem]
      have hstep : (t.map f).dedup.map
            (fun k => ((a :: t).filter (fun x => f x = k)).length)
          = (t.map f).dedup.map
            (fun k => (if f a = k then 1 else 0) +
              (t.filter (fun x => f x = k)).length) := by
        refine List.map_congr_left ?_
        intro k hk
        rw [List.filter_cons]
        by_cases hfa : f a = k
        · simp [hfa]
          omega
        · simp [hfa]
      rw [hstep, sumMapAdd, countIndicator,
        List.count_eq_one_of_mem (List.nodup_dedup _) (List.mem_dedup.mpr hmem),
        ih, List.length_cons]
      omega
    · rw [List.dedup_cons_of_not_mem hmem, List.map_cons, List.sum_cons]
      have hta : (t.filter (fun x => f x = f a)).length = 0 := by
        rw [List.length_eq_zero, List.filter_eq_nil_iff]
        intro x hx hfx
        exact hmem (List.mem_map.mpr ⟨x, hx, by simpa using hfx⟩)
      have hhead : ((a :: t).filter (fun x => f x = f a)).length = 1 := by
        rw [List.filter_cons]
        simp [hta]
      have hstep : (t.map f).dedup.map
            (fun k => ((a :: t).filter (fun x => f x = k)).length)
          = (t.map f).dedup.map
            (fun k => (t.filter (fun x => f x = k)).length) := by
        refine List.map_congr_left ?_
        intro k hk
        rw [List.filter_cons]
        have hfa : ¬ f a = k := by
          intro he
          exact hmem (he ▸ List.mem_dedup.mp hk)
        simp [hfa]
      rw [hhead, hstep, ih, List.length_cons]
      omega

theorem grpIdxs_head_mem {rows : List Row} {key : Option ℚ × Option ℚ}
    {i0 : ℕ} {rest : List ℕ} (hg : grpIdxs rows key = i0 :: rest) :
    ∃ c, rows[i0]? = some c ∧ rKey c = key := by
  have hm : i0 ∈ grpIdxs rows key := by
    rw [hg]
    exact List.mem_cons_self _ _
  have hcond := List.of_mem_filter hm
  cases hr : rows[i0]? with
  | none =>
    rw [hr] at hcond
    simp at hcond
  | some c =>
    rw [hr] at hcond
    simp at hcond
    exact ⟨c, rfl, hcond⟩

theorem jitterOne_latNan (amt : ℚ) (rows : List Row) (i : ℕ) (r : Row) :
    axIsNan (jitterOne amt rows i r).latJ = r.lat.isNone := by
  unfold jitterOne
  cases hg : grpIdxs rows (rKey r) with
  | nil =>
    show axIsNan (JAx.raw r.lat) = r.lat.isNone
    cases r.lat <;> rfl
  | cons i0 rest =>
    simp only [jitterPlace]
    by_cases h1 : (i0 :: rest).length ≤ 1
    · rw [if_pos h1]
      show axIsNan (JAx.raw r.lat) = _
      cases r.lat <;> rfl
    · rw [if_neg h1]
      by_cases h2 : i = i0
      · rw [if_pos h2]
        show axIsNan (JAx.raw r.lat) = _
        cases r.lat <;> rfl
      · rw [if_neg h2]
        obtain ⟨c, hc, hkey⟩ := grpIdxs_head_mem hg
        rw [hc]
        have hgd : (some c).getD r = c := rfl
        rw [hgd]
        cases hcl : c.lat with
        | none =>
          show axIsNan (JAx.raw r.lat) = _
          cases r.lat <;> rfl
        | some cl =>
          show axIsNan (JAx.circ cl amt (rest.indexOf i) ((i0 :: rest).length - 1))
            = r.lat.isNone
          have hfst : c.lat.map round5 = r.lat.map round5 := congrArg Prod.fst hkey
          rw [hcl] at hfst
          cases hrl : r.lat with
          | none =>
            rw [hrl] at hfst
            exact absurd hfst (by simp)
          | some y => rfl

theorem jitterOne_lonNan (amt : ℚ) (rows : List Row) (i : ℕ) (r : Row) :
    axIsNan (jitterOne amt rows i r).lonJ = r.lon.isNone := by
  unfold jitterOne
  cases hg : grpIdxs rows (rKey r) with
  | nil =>
    show axIsNan (JAx.raw r.lon) = r.lon.isNone
    cases r.lon <;> rfl
  | cons i0 rest =>
    simp only [jitterPlace]
    by_cases h1 : (i0 :: rest).length ≤ 1
    · rw [if_pos h1]
      show axIsNan (JAx.raw r.lon) = _
      cases r.lon <;> rfl
    · rw [if_neg h1]
      by_cases h2 : i = i0
      · rw [if_pos h2]
        show axIsNan (JAx.raw r.lon) = _
        cases r.lon <;> rfl
      · rw [if_neg h2]
        obtain ⟨c, hc, hkey⟩ := grpIdxs_head_mem hg
        rw [hc]
        have hgd : (some c).getD r = c := rfl
        rw [hgd]
        cases hcl : c.lon with
        | none =>
          show axIsNan (JAx.raw r.lon) = _
          cases r.lon <;> rfl
        | some cl =>
          show axIsNan (JAx.circ cl amt (rest.indexOf i) ((i0 :: rest).length - 1))
            = r.lon.isNone
          have hsnd : c.lon.map round5 = r.lon.map round5 := congrArg Prod.snd hkey
          rw [hcl] at hsnd
          cases hrl : r.lon with
          | none =>
            rw [hrl] at hsnd
            exact absurd hsnd (by simp)
          | some y => rfl

theorem dropNoCoord_length (amt : ℚ) (rows : List Row) (lab : JRow → List Char) :
    (dropNoCoord ((jitterCoords amt rows).map (fun j => (⟨j, lab j⟩ : LRow)))).length
      = (rows.filter (fun r => r.lat.isSome && r.lon.isSome)).length := by
  unfold dropNoCoord jitterCoords
  rw [← List.countP_eq_length_filter, ← List.countP_eq_length_filter,
    List.countP_map, List.countP_map]
  have hcg : List.countP
      (((fun x : LRow => !(axIsNan x.jrow.latJ) && !(axIsNan x.jrow.lonJ)) ∘
        (fun j => (⟨j, lab j⟩ : LRow))) ∘ (fun p : ℕ × Row => jitterOne amt rows p.1 p.2))
      rows.enum
      = List.countP ((fun r : Row => r.lat.isSome && r.lon.isSome) ∘ Prod.snd)
          rows.enum := by
    refine List.countP_congr ?_
    intro pr hpr
    show (!(axIsNan (jitterOne amt rows pr.1 pr.2).latJ) &&
        !(axIsNan (jitterOne amt rows pr.1 pr.2).lonJ)) = true
      ↔ (pr.2.lat.isSome && pr.2.lon.isSome) = true
    rw [jitterOne_latNan, jitterOne_lonNan]
    cases pr.2.lat <;> cases pr.2.lon <;> simp
  rw [hcg, ← List.countP_map, List.enum_map_snd]

/-- The per-marker event counts produced by the map aggregator sum to the
number of rows with non-null lat and lon, for any labelling of the
jittered rows. -/
theorem markerCountSum (amt : ℚ) (rows : List Row) (lab : JRow → List Char) :
    ((aggregateEventsForMap
          ((jitterCoords amt rows).map (fun j => (⟨j, lab j⟩ : LRow)))).map
        (fun m => m.count)).sum
      = (rows.filter (fun r => r.lat.isSome && r.lon.isSome)).length := by
  unfold aggregateEventsForMap
  rw [List.map_map]
  have hcomp : ((fun m : Marker => m.count) ∘ fun k =>
      ({ label := k
       , lat := (((dropNoCoord ((jitterCoords amt rows).map
            (fun j => (⟨j, lab j⟩ : LRow)))).filter
              (fun x => x.label = k)).headD default).jrow.latJ
       , lon := (((dropNoCoord ((jitterCoords amt rows).map
            (fun j => (⟨j, lab j⟩ : LRow)))).filter
              (fun x => x.label = k)).headD default).jrow.lonJ
       , count := ((dropNoCoord ((jitterCoords amt rows).map
            (fun j => (⟨j, lab j⟩ : LRow)))).filter
              (fun x => x.label = k)).length
       , sizeMean := groupMean ((dropNoCoord ((jitterCoords amt rows).map
            (fun j => (⟨j, lab j⟩ : LRow)))).filter
              (fun x => x.label = k)) } : Marker))
      = (fun k => ((dropNoCoord ((jitterCoords amt rows).map
            (fun j => (⟨j, lab j⟩ : LRow)))).filter
              (fun x => x.label = k)).length) := by
    funext k
    rfl
  rw [hcomp, sum_group_sizes (fun x : LRow => x.label), dropNoCoord_length]


/-! ### The update_all callback (src/app.py lines 1041-1739): output
bundle and branch structure.  Figures carry the data series they draw;
styling, hover strings, zoom and centering are presentation and are not
modelled.  The table output carries the jittered rows; dropping the
source_2..source_30 columns and stringifying NaN for the data table is
presentation.  In the no-participant-count branch the code also computes
a momentum and a daily-participant figure that it then discards in favour
of dash placeholders; only the returned outputs are modelled. -/

/-- A KPI tile value: a dash placeholder, the string nan (a nanmean over
an all-NaN column), or a number. -/
inductive Kpi
  | dash
  | nanv
  | val (q : ℚ)
  deriving DecidableEq, Repr

/-- A figure output, identified by the data series it draws. -/
inductive Fig
  | noData
  | dash
  | mapF (markers : List Marker)
  | barN (pts : List (Int × ℕ))
  | lineN (pts : List (Int × ℕ))
  | momentumF (pts : List (Int × Option ℚ)) (trend : Option (ℚ × ℚ))
  | barQ (pts : List (Int × ℚ))
  deriving DecidableEq, Repr

/-- The three-point-five-percent check record stored for the client. -/
structure TPF where
  threshold : Int
  largestDayTotal : Int
  met : Bool
  percent : ℚ
  population : Int
  label : List Char
  deriving DecidableEq, Repr

/-- The sixteen outputs of the update_all callback. -/
structure Outputs where
  mapFig : Fig
  momentumFig : Fig
  dailyFig : Fig
  table : List JRow
  cumulativeFig : Fig
  dailyPartFig : Fig
  totalEvents : Kpi
  meanSize : Kpi
  noInjuries : Kpi
  noArrests : Kpi
  noDamage : Kpi
  totalParticipants : Kpi
  largestEvent : Kpi
  largestDay : Kpi
  percentPop : Kpi
  threeFive : Option TPF
  deriving DecidableEq, Repr

/-- The bundle returned when all latitudes or all longitudes are null:
annotated empty figures, an empty table, and a dash for every KPI. -/
def noDataBundle : Outputs :=
  { mapFig := .noData, momentumFig := .noData, dailyFig := .noData
  , table := [], cumulativeFig := .noData, dailyPartFig := .noData
  , totalEvents := .dash, meanSize := .dash, noInjuries := .dash
  , noArrests := .dash, noDamage := .dash, totalParticipants := .dash
  , largestEvent := .dash, largestDay := .dash, percentPop := .dash
  , threeFive := none }

/-- The row-wise best_location of the no-participant-count branch: same
cascade as the vectorised label, except a missing date renders as Unknown
rather than NaT in the fallback. -/
def bestLocationRow (r : Row) : List Char :=
  if strip (toStr r.location) ≠ [] ∧
      lcStr (strip (toStr r.location)) ≠ "nan".toList then
    strip (toStr r.location)
  else if strip (toStr r.locality) ≠ [] ∧
      lcStr (strip (toStr r.locality)) ≠ "nan".toList then
    strip (toStr r.locality)
  else
    toStr r.state ++ ", ".toList ++
      (match r.date with
       | some d => dateStr d
       | none => "Unknown".toList)

/-- The non-null participant counts of the filtered rows. -/
def sizeNN (rows : List Row) : List ℚ := rows.filterMap (fun r => r.size_mean)

/-- The largest element of a list of rationals, none when empty. -/
def maxQ : List ℚ → Option ℚ
  | [] => none
  | x :: t => some (t.foldl max x)

/-- np.nanmean of the size column guarded by arr.size: zero when there are
no rows, nan when no row has a count, else the mean of the counts. -/
def meanSizeKpi (rows : List Row) : Kpi :=
  if rows.length = 0 then .val 0
  else if (sizeNN rows).length = 0 then .nanv
  else .val ((sizeNN rows).sum / ((sizeNN rows).length : ℚ))

/-- Whether a coerced outcome cell is NaN or zero. -/
def cellNanOrZero (c : Cell) : Bool :=
  match c with
  | .num none => true
  | .num (some q) => q = 0
  | .text _ => false

/-- The percentage of rows whose outcome cell is NaN or zero, zero when
there are no rows. -/
def pctNanOrZero (get : Row → Cell) (rows : List Row) : ℚ :=
  if rows.length = 0 then 0
  else 100 * ((rows.filter (fun r => cellNanOrZero (get r))).length : ℚ) /
    (rows.length : ℚ)

/-- The percentage of rows with property_damage_any equal to zero. -/
def pctDamageZero (rows : List Row) : ℚ :=
  if rows.length = 0 then 0
  else 100 * ((rows.filter (fun r => r.property_damage_any = 0)).length : ℚ) /
    (rows.length : ℚ)

/-- int(round(np.nansum)) over the participant counts. -/
def totalPartKpi (rows : List Row) : Kpi :=
  if rows.length = 0 then .val 0
  else .val ((roundHE (sizeNN rows).sum : Int) : ℚ)

/-- np.nanmax of the size column, a dash when no row has a count. -/
def largestEventKpi (rows : List Row) : Kpi :=
  match maxQ (sizeNN rows) with
  | none => .dash
  | some q => .val ((roundHE q : Int) : ℚ)

/-- The distinct dates of the filtered rows in first-appearance order, as
groupby with sort disabled produces them; NaT keys are dropped. -/
def uniqueDates (rows : List Row) : List Int :=
  (rows.filterMap (fun r => r.date)).dedup

/-- The participant-count sum of one date group (NaN counted as zero). -/
def daySum (rows : List Row) (d : Int) : ℚ :=
  ((rows.filter (fun r => r.date = some d)).filterMap (fun r => r.size_mean)).sum

/-- The largest single-day participant total, none when no row has a
date. -/
def largestDayVal (rows : List Row) : Option ℚ :=
  maxQ ((uniqueDates rows).map (daySum rows))

/-- The Largest Day of Action KPI, a dash when undefined. -/
def largestDayKpi (rows : List Row) : Kpi :=
  match largestDayVal rows with
  | none => .dash
  | some q => .val ((roundHE q : Int) : ℚ)

/-- The fixed national population constant of src/app.py line 19. -/
def US_POPULATION : ℚ := 340100000

/-- The STATE_POP lookup of one selected state: the state itself when it
is a key, else the first key equal to it case-insensitively. -/
def abbrevFor (pops : List (List Char × ℚ)) (s : List Char) : Option (List Char) :=
  if pops.any (fun p => p.1 = s) then some s
  else ((pops.filter (fun p => lcStr p.1 = lcStr s)).head?).map (fun p => p.1)

/-- Join abbreviations with a slash, the pop_label format. -/
def joinSlash : List (List Char) → List Char
  | [] => []
  | [x] => x
  | x :: y :: t => x ++ '/' :: joinSlash (y :: t)

/-- The population denominator and its label: the sum of the selected
states populations when a state filter is set and resolves to a positive
sum, else the national constant.  The STATE_POP table lives in the
state_pop module, which is not part of the sources; it is passed in as
the pops argument. -/
def popDenom (pops : List (List Char × ℚ)) (stateF : List (List Char)) :
    ℚ × List Char :=
  if stateF ≠ [] then
    let abbrevs := stateF.filterMap (abbrevFor pops)
    let d := (abbrevs.map (fun a =>
      (((pops.filter (fun p => p.1 = a)).head?).map (fun p => p.2)).getD 0)).sum
    if 0 < d then (d, joinSlash abbrevs ++ " population".toList)
    else (US_POPULATION, "US population".toList)
  else (US_POPULATION, "US population".toList)

/-- The Largest Day as percent of population value: zero whenever the
largest day is undefined or zero or the denominator is not positive. -/
def percentPopVal (pops : List (List Char × ℚ)) (stateF : List (List Char))
    (rows : List Row) : ℚ :=
  match largestDayVal rows with
  | some q => if 0 < (popDenom pops stateF).1 ∧ q ≠ 0 then
      100 * q / (popDenom pops stateF).1 else 0
  | none => 0

/-- The three-point-five-percent record: the threshold is 3.5 percent of
the denominator (the float 0.035 idealised as 35/1000), met when the
largest day is non-zero and at least the threshold. -/
def threeFiveCheck (pops : List (List Char × ℚ)) (stateF : List (List Char))
    (rows : List Row) : TPF :=
  { threshold := roundHE ((popDenom pops stateF).1 * 35 / 1000)
  , largestDayTotal := match largestDayVal rows with
      | some q => roundHE q
      | none => 0
  , met := match largestDayVal rows with
      | some q => decide (q ≠ 0) && decide ((popDenom pops stateF).1 * 35 / 1000 ≤ q)
      | none => false
  , percent := percentPopVal pops stateF rows
  , population := Int.floor (popDenom pops stateF).1
  , label := (popDenom pops stateF).2 }

/-- The least-squares line over a set of points (np.polyfit of degree 1). -/
def olsFit (pts : List (ℚ × ℚ)) : ℚ × ℚ :=
  ((((pts.length : ℚ)) * (pts.map (fun p => p.1 * p.2)).sum -
      (pts.map (fun p => p.1)).sum * (pts.map (fun p => p.2)).sum) /
    (((pts.length : ℚ)) * (pts.map (fun p => p.1 * p.1)).sum -
      (pts.map (fun p => p.1)).sum * (pts.map (fun p => p.1)).sum),
   ((pts.map (fun p => p.2)).sum -
      ((((pts.length : ℚ)) * (pts.map (fun p => p.1 * p.2)).sum -
          (pts.map (fun p => p.1)).sum * (pts.map (fun p => p.2)).sum) /
        (((pts.length : ℚ)) * (pts.map (fun p => p.1 * p.1)).sum -
          (pts.map (fun p => p.1)).sum * (pts.map (fun p => p.1)).sum)) *
        (pts.map (fun p => p.1)).sum) / ((pts.length : ℚ)))

/-- The momentum trendline, present when more than one momentum value is
defined.  The source fits against the numeric datetime (nanoseconds); the
fitted values at the sampled days are invariant under that affine
reparametrisation, so day units are used here. -/
def momentumTrend (rows : List Row) : Option (ℚ × ℚ) :=
  if 1 < (((momDays rows).zip (momentum rows)).filterMap
      (fun p => p.2.map (fun y => ((p.1 : ℚ), y)))).length then
    some (olsFit (((momDays rows).zip (momentum rows)).filterMap
      (fun p => p.2.map (fun y => ((p.1 : ℚ), y)))))
  else none

/-- update_all after filtering: the guard branch when all latitudes or
all longitudes are null (which an empty filtered set always satisfies),
the no-participant-count branch, and the main branch. -/
def updateAll (pops : List (List Char × ℚ)) (p : Params) (rows : List Row) :
    Outputs :=
  if rows.all (fun r => r.lat.isNone) || rows.all (fun r => r.lon.isNone) then
    noDataBundle
  else if p.sizeFilter = "no".toList then
    { mapFig := .mapF (aggregateEventsForMap ((jitterCoords (1/100) rows).map
        (fun j => (⟨j, bestLocationRow j.row⟩ : LRow))))
    , momentumFig := .dash
    , dailyFig := .barN (dailySeries rows)
    , table := jitterCoords (1/100) rows
    , cumulativeFig := .lineN (cumulativeSeries rows)
    , dailyPartFig := .dash
    , totalEvents := .val (rows.length : ℚ)
    , meanSize := .dash, noInjuries := .dash, noArrests := .dash
    , noDamage := .dash, totalParticipants := .dash, largestEvent := .dash
    , largestDay := .dash, percentPop := .dash
    , threeFive := none }
  else
    { mapFig := .mapF (aggregateEventsForMap ((jitterCoords (1/100) rows).map
        (fun j => (⟨j, locationLabel j.row⟩ : LRow))))
    , momentumFig := .momentumF ((momDays rows).zip (momentum rows))
        (momentumTrend rows)
    , dailyFig := .barN (dailySeries rows)
    , table := jitterCoords (1/100) rows
    , cumulativeFig := .lineN (cumulativeSeries rows)
    , dailyPartFig := .barQ ((uniqueDates rows).map (fun d => (d, daySum rows d)))
    , totalEvents := .val (rows.length : ℚ)
    , meanSize := meanSizeKpi rows
    , noInjuries := .val (pctNanOrZero (fun r => r.participant_injuries) rows)
    , noArrests := .val (pctNanOrZero (fun r => r.arrests) rows)
    , noDamage := .val (pctDamageZero rows)
    , totalParticipants := totalPartKpi rows
    , largestEvent := largestEventKpi rows
    , largestDay := largestDayKpi rows
    , percentPop := .val (percentPopVal pops p.stateF rows)
    , threeFive := some (threeFiveCheck pops p.stateF rows) }

/-- Claim C7: an empty filtered set (totalEvents equal to zero) always
satisfies the all-null guard, so every output is the defined no-data
bundle: annotated empty figures, an empty table, and a dash sentinel for
every KPI including every percentage KPI, with no division performed. -/
theorem emptyBundleSpec (pops : List (List Char × ℚ)) (p : Params) :
    updateAll pops p [] = noDataBundle ∧
      noDataBundle.totalEvents = Kpi.dash ∧
      noDataBundle.meanSize = Kpi.dash ∧
      noDataBundle.noInjuries = Kpi.dash ∧
      noDataBundle.noArrests = Kpi.dash ∧
      noDataBundle.noDamage = Kpi.dash ∧
      noDataBundle.totalParticipants = Kpi.dash ∧
      noDataBundle.largestEvent = Kpi.dash ∧
      noDataBundle.largestDay = Kpi.dash ∧
      noDataBundle.percentPop = Kpi.dash ∧
      noDataBundle.table = [] ∧
      noDataBundle.mapFig = Fig.noData ∧
      noDataBundle.momentumFig = Fig.noData ∧
      noDataBundle.dailyFig = Fig.noData ∧
      noDataBundle.cumulativeFig = Fig.noData ∧
      noDataBundle.dailyPartFig = Fig.noData ∧
      noDataBundle.threeFive = none :=
  ⟨rfl, rfl, rfl, rfl, rfl, rfl, rfl, rfl, rfl, rfl, rfl, rfl, rfl, rfl, rfl,
   rfl, rfl⟩

/-- Claim C10 (amended): when the participant-count filter is no and the
filtered set escapes the all-null-coordinate guard (so in particular it
is non-empty), the map, daily-count and cumulative outputs are computed,
the table holds the jittered rows, the Total Events KPI holds the row
count, and every other KPI is a dash with the momentum and
daily-participant figures returned as dash placeholders.  (The frozen
claim only requires the set to be non-empty; a non-empty set whose
latitudes are all null takes the guard branch instead, where even Total
Events is a dash — see the counterexample.) -/
theorem sizeNoBranchSpec (pops : List (List Char × ℚ)) (p : Params)
    (rows : List Row)
    (hguard : ¬ (rows.all (fun r => r.lat.isNone)
        || rows.all (fun r => r.lon.isNone)) = true)
    (hsf : p.sizeFilter = "no".toList) :
    updateAll pops p rows =
      { mapFig := .mapF (aggregateEventsForMap ((jitterCoords (1/100) rows).map
          (fun j => (⟨j, bestLocationRow j.row⟩ : LRow))))
      , momentumFig := .dash
      , dailyFig := .barN (dailySeries rows)
      , table := jitterCoords (1/100) rows
      , cumulativeFig := .lineN (cumulativeSeries rows)
      , dailyPartFig := .dash
      , totalEvents := .val (rows.length : ℚ)
      , meanSize := .dash, noInjuries := .dash, noArrests := .dash
      , noDamage := .dash, totalParticipants := .dash, largestEvent := .dash
      , largestDay := .dash, percentPop := .dash
      , threeFive := none } := by
  unfold updateAll
  rw [if_neg hguard, if_pos hsf]

/-- A row with coordinates and a date but no participant count. -/
def rowC : Row := { row0 with lat := some 1, lon := some 2, date := some 0 }

/-- The all-filters-off parameter set with the participant-count filter
set to no. -/
def pNo : Params := { pAll with sizeFilter := "no".toList }

/-- Witness for sizeNoBranchSpec at a one-row set with coordinates. -/
theorem sizeNoBranchSpec_witness :
    (updateAll [] pNo [rowC]).momentumFig = Fig.dash ∧
      (updateAll [] pNo [rowC]).dailyPartFig = Fig.dash ∧
      (updateAll [] pNo [rowC]).totalEvents = Kpi.val 1 ∧
      (updateAll [] pNo [rowC]).meanSize = Kpi.dash ∧
      (updateAll [] pNo [rowC]).dailyFig = Fig.barN (dailySeries [rowC]) := by
  have h := sizeNoBranchSpec [] pNo [rowC] (by decide) (by decide)
  rw [h]
  refine ⟨rfl, rfl, ?_, rfl, rfl⟩
  show Kpi.val (([rowC] : List Row).length : ℚ) = Kpi.val 1
  norm_num

/-- A row whose latitude is null but longitude is not. -/
def rowLatNone : Row := { row0 with lon := some 1, date := some 0 }

/-- Counterexample to claim C10 as frozen: a non-empty filtered set whose
latitudes are all null takes the guard branch, so the map is the no-data
figure and even the Total Events KPI is a dash, not the row count. -/
theorem sizeNoClaimDiverges :
    (updateAll [] pNo [rowLatNone]).totalEvents = Kpi.dash ∧
      (updateAll [] pNo [rowLatNone]).mapFig = Fig.noData ∧
      ([rowLatNone] : List Row).length ≠ 0 ∧
      Kpi.dash ≠ Kpi.val 1 :=
  ⟨by decide, by decide, by decide, by decide⟩

/-- Claim C6: the per-marker event counts produced by the map aggregator
sum to the number of filtered rows with non-null lat and lon (jitter never
changes whether an axis is null), for any labelling of the jittered rows;
rows with missing lat or lon are nevertheless still counted in the KPIs
and time series: whenever update_all escapes the all-null guard, its
Total Events KPI is the count of all filtered rows, its daily and
cumulative figures are the series built from all filtered rows, and the
daily event-count series sums to the number of dated filtered rows,
coordinates or not. -/
theorem mapAggSpec (amt : ℚ) (rows : List Row) (lab : JRow → List Char)
    (pops : List (List Char × ℚ)) (p : Params)
    (hguard : ¬ (rows.all (fun r => r.lat.isNone)
        || rows.all (fun r => r.lon.isNone)) = true) :
    (((aggregateEventsForMap
          ((jitterCoords amt rows).map (fun j => (⟨j, lab j⟩ : LRow)))).map
        (fun m => m.count)).sum
      = (rows.filter (fun r => r.lat.isSome && r.lon.isSome)).length) ∧
    (updateAll pops p rows).totalEvents = Kpi.val (rows.length : ℚ) ∧
    (updateAll pops p rows).dailyFig = Fig.barN (dailySeries rows) ∧
    (updateAll pops p rows).cumulativeFig = Fig.lineN (cumulativeSeries rows) ∧
    ((dailySeries rows).map (fun q => q.2)).sum
      = (rows.filter (fun r => r.date.isSome)).length := by
  refine ⟨markerCountSum amt rows lab, ?_, ?_, ?_, ?_⟩
  · unfold updateAll
    rw [if_neg hguard]
    by_cases hsf : p.sizeFilter = "no".toList
    · rw [if_pos hsf]
    · rw [if_neg hsf]
  · unfold updateAll
    rw [if_neg hguard]
    by_cases hsf : p.sizeFilter = "no".toList
    · rw [if_pos hsf]
    · rw [if_neg hsf]
  · unfold updateAll
    rw [if_neg hguard]
    by_cases hsf : p.sizeFilter = "no".toList
    · rw [if_pos hsf]
    · rw [if_neg hsf]
  · unfold dailySeries
    rw [List.map_map]
    have hco : ((fun q : Int × ℕ => q.2) ∘ (fun d => (d, cntDate rows d)))
        = (fun d => cntDate rows d) := by
      funext d
      rfl
    rw [hco]
    exact sum_cntDate _ (spanDays_nodup _) rows
      (fun r hr v hv => mem_spanDays (List.mem_filterMap.mpr ⟨r, hr, hv⟩))

/-- Witness for mapAggSpec at a two-row set holding one row with
coordinates and one with neither coordinate nor date. -/
theorem mapAggSpec_witness :
    (((aggregateEventsForMap
          ((jitterCoords (1/100) [rowC, row0]).map
            (fun j => (⟨j, ([] : List Char)⟩ : LRow)))).map
        (fun m => m.count)).sum
      = (([rowC, row0] : List Row).filter
          (fun r => r.lat.isSome && r.lon.isSome)).length) ∧
    (updateAll [] pAll [rowC, row0]).totalEvents
      = Kpi.val ((([rowC, row0] : List Row).length : ℚ)) ∧
    ((dailySeries [rowC, row0]).map (fun q => q.2)).sum
      = (([rowC, row0] : List Row).filter (fun r => r.date.isSome)).length := by
  have h := mapAggSpec (1/100) [rowC, row0] (fun _ => ([] : List Char)) [] pAll
    (by decide)
  exact ⟨h.1, h.2.1, h.2.2.2.2⟩


end CCC
